import Mathlib

/-!
Verification of the joint abstraction and safety-monitoring layer of the
monopod_sdk repository.  The definitions below are a shallow embedding of
`src/src/encoder_joint_module.cpp` (the `EncoderJointModule` class) and of the
inline helpers of the `Monopod` class header contained in
`src/demos/sine_position_control.cpp` (`getJointDataSerialized`, `Contains`,
`in_range`, `JointLimit`).

Modelling conventions:
- C++ `double` is modelled by the type `D` below: either a rational value or
  `D.nan`.  Non-finite results (IEEE NaN and the infinities produced by a
  division by zero) are collapsed into `D.nan`; no verified statement needs to
  distinguish them.
- The time-series measurement history (an external capability) is modelled by
  its observable interface: a list of samples (newest first) plus the newest
  logical time index.
- `std::mutex limit_door_` is modelled by a natural number counting how many
  times the mutex is currently held; `lock()` adds one and `unlock()` subtracts
  one.  Operations of the module take the count at entry and return the count
  at the moment the function returns.
- The `limits_` map (measurement kind to joint limit) is modelled as a total
  function into `Option JointLimit`; `none` means the map holds no entry for
  that kind.  `std::map::at` on a missing key throws `std::out_of_range`,
  modelled as `Except.error ()`.
-/

set_option autoImplicit false

/-- Model of a C++ `double`: a rational value, or a non-finite value
(NaN, or the infinities arising from division by zero) collapsed into
`D.nan`. -/
inductive D where
  | nan : D
  | val : ℚ → D
deriving DecidableEq, Repr

/-- Model of `std::isnan` (true on every non-finite value of the model). -/
def D.isnan : D → Bool
  | D.nan => true
  | D.val _ => false

/-- Division of a modelled double by a rational.  Division by zero yields a
non-finite result in IEEE arithmetic, collapsed into `D.nan`. -/
def D.divQ : D → ℚ → D
  | D.nan, _ => D.nan
  | D.val a, g => if g = 0 then D.nan else D.val (a / g)

/-- Subtraction of a rational from a modelled double; NaN propagates. -/
def D.subQ : D → ℚ → D
  | D.nan, _ => D.nan
  | D.val a, z => D.val (a - z)

/-- The `Measurements` enumeration of measurement kinds (closed set:
position, velocity, acceleration, encoder_index). -/
inductive Measurements where
  | position : Measurements
  | velocity : Measurements
  | acceleration : Measurements
  | encoder_index : Measurements
deriving DecidableEq, Repr

/-- The list of all measurement kinds. -/
def Measurements.kinds : List Measurements :=
  [Measurements.position, Measurements.velocity,
   Measurements.acceleration, Measurements.encoder_index]

theorem Measurements.mem_kinds (k : Measurements) : k ∈ Measurements.kinds := by
  cases k <;> simp [Measurements.kinds]

/-- The largest finite double, `std::numeric_limits<double>::max()`, as an
exact rational. -/
def double_max : ℚ := 2 ^ 1024 - 2 ^ 971

/-- The smallest finite double, `std::numeric_limits<double>::lowest()`, as an
exact rational. -/
def double_lowest : ℚ := -(2 ^ 1024 - 2 ^ 971)

/-- The `Monopod::JointLimit` structure: a {min, max} pair of doubles.  Limits
written by callers are finite, so the fields are rationals. -/
structure JointLimit where
  min : ℚ
  max : ℚ
deriving DecidableEq, Repr

/-- The default `JointLimit` constructor: min is the lowest representable
double and max is the largest representable double (unconstrained). -/
def JointLimit.unconstrained : JointLimit :=
  { min := double_lowest, max := double_max }

/-- Model of the `in_range` template helper of the Monopod header:
`min <= value && value < max`.  A NaN value compares false on both sides. -/
def in_range (value : D) (mn mx : ℚ) : Bool :=
  match value with
  | D.nan => false
  | D.val v => decide (mn ≤ v) && decide (v < mx)

/-- Observable interface of one time-series measurement history channel:
the retained samples (newest first) and the newest logical time index. -/
structure TimeSeries where
  samples : List ℚ
  newest_timeindex : ℤ
deriving DecidableEq, Repr

/-- The `length()` accessor of a measurement history. -/
def TimeSeries.length (ts : TimeSeries) : ℕ := ts.samples.length

/-- The `newest_element()` accessor of a measurement history (only consulted
after a non-empty length check, so the default on an empty list is inert). -/
def TimeSeries.newest_element (ts : TimeSeries) : ℚ := ts.samples.headD 0

/-- The `EncoderJointModule` class state: calibration values, the encoder
measurement histories (one channel per measurement kind, reached through
`encoder_->get_measurement`), and the mutex-guarded map of joint limits. -/
structure EncoderJointModule where
  joint_id : ℕ
  gear_ratio : ℚ
  zero_angle : ℚ
  polarity : ℚ
  encoder : Measurements → TimeSeries
  limits : Measurements → Option JointLimit

/-- The `EncoderJointModule` constructor: stores the calibration values
(without any validation of `gear_ratio`), derives polarity from the
reverse-polarity flag, and leaves the `limits_` map default-constructed
(empty). -/
def EncoderJointModule.construct (joint_id : ℕ) (encoder : Measurements → TimeSeries)
    (gear_ratio : ℚ) (zero_angle : ℚ) (reverse_polarity : Bool) : EncoderJointModule :=
  { joint_id := joint_id
    gear_ratio := gear_ratio
    zero_angle := zero_angle
    polarity := if reverse_polarity then -1 else 1
    encoder := encoder
    limits := fun _ => none }

/-- Model of `EncoderJointModule::set_zero_angle`. -/
def EncoderJointModule.set_zero_angle (m : EncoderJointModule) (zero_angle : ℚ) :
    EncoderJointModule :=
  { m with zero_angle := zero_angle }

/-- Model of `EncoderJointModule::set_joint_polarity`. -/
def EncoderJointModule.set_joint_polarity (m : EncoderJointModule)
    (reverse_polarity : Bool) : EncoderJointModule :=
  { m with polarity := if reverse_polarity then -1 else 1 }

/-- Model of `EncoderJointModule::get_joint_measurement`: NaN when the
channel history is empty, otherwise polarity times the newest raw element. -/
def EncoderJointModule.get_joint_measurement (m : EncoderJointModule)
    (measurement_id : Measurements) : D :=
  let measurement_history := m.encoder measurement_id
  if measurement_history.length = 0 then D.nan
  else D.val (m.polarity * measurement_history.newest_element)

/-- Model of `EncoderJointModule::get_measured_angle`:
`get_joint_measurement(position) / gear_ratio_ - zero_angle_`. -/
def EncoderJointModule.get_measured_angle (m : EncoderJointModule) : D :=
  ((m.get_joint_measurement Measurements.position).divQ m.gear_ratio).subQ m.zero_angle

/-- Model of `EncoderJointModule::get_measured_velocity`. -/
def EncoderJointModule.get_measured_velocity (m : EncoderJointModule) : D :=
  (m.get_joint_measurement Measurements.velocity).divQ m.gear_ratio

/-- Model of `EncoderJointModule::get_measured_acceleration`. -/
def EncoderJointModule.get_measured_acceleration (m : EncoderJointModule) : D :=
  (m.get_joint_measurement Measurements.acceleration).divQ m.gear_ratio

/-- Model of `EncoderJointModule::get_measured_index_angle`. -/
def EncoderJointModule.get_measured_index_angle (m : EncoderJointModule) : D :=
  (m.get_joint_measurement Measurements.encoder_index).divQ m.gear_ratio

/-- Model of `EncoderJointModule::get_joint_measurement_index`: -1 when the
channel history is empty, otherwise the newest logical time index. -/
def EncoderJointModule.get_joint_measurement_index (m : EncoderJointModule)
    (measurement_id : Measurements) : ℤ :=
  let measurement_history := m.encoder measurement_id
  if measurement_history.length = 0 then -1
  else measurement_history.newest_timeindex

/-- Model of `EncoderJointModule::set_limit`: lock the mutex, write the map
entry, unlock, return.  `door` counts how many times `limit_door_` is held at
entry; the second component is the count when the call returns. -/
def EncoderJointModule.set_limit (m : EncoderJointModule) (door : ℕ)
    (index : Measurements) (limit : JointLimit) : EncoderJointModule × ℕ :=
  let door1 := door + 1
  let m1 := { m with limits := fun k => if k = index then some limit else m.limits k }
  let door2 := door1 - 1
  (m1, door2)

/-- Model of `EncoderJointModule::get_limit`: lock the mutex, then
`return limits_.at(index)` — the `unlock()` written after the return statement
is unreachable, so the mutex count at the moment control leaves the function
is still `door + 1`.  A missing entry makes `at` throw `std::out_of_range`,
modelled as `Except.error ()` (the mutex is not released on that path
either). -/
def EncoderJointModule.get_limit (m : EncoderJointModule) (door : ℕ)
    (index : Measurements) : Except Unit JointLimit × ℕ :=
  let door1 := door + 1
  match m.limits index with
  | some limit => (Except.ok limit, door1)
  | none => (Except.error (), door1)

/-- The measurement computed by the switch statement inside
`EncoderJointModule::check_limits`: position, velocity and acceleration map to
the calibrated getters, every other kind (here `encoder_index`) falls into the
default branch and yields the constant 0. -/
def EncoderJointModule.limit_measurement (m : EncoderJointModule) :
    Measurements → D
  | Measurements.position => m.get_measured_angle
  | Measurements.velocity => m.get_measured_velocity
  | Measurements.acceleration => m.get_measured_acceleration
  | Measurements.encoder_index => D.val 0

/-- One iteration of the loop of `EncoderJointModule::check_limits` for a
given kind: kinds without a map entry contribute nothing; a configured kind is
exempt when its measurement is NaN and the kind is acceleration, and is
otherwise checked with `in_range`. -/
def EncoderJointModule.check_limit_entry (m : EncoderJointModule)
    (measurement_id : Measurements) : Bool :=
  match m.limits measurement_id with
  | none => true
  | some joint_limit =>
      let meas := m.limit_measurement measurement_id
      if meas.isnan && decide (measurement_id = Measurements.acceleration) then true
      else in_range meas joint_limit.min joint_limit.max

/-- Model of `EncoderJointModule::check_limits`: lock the mutex, conjoin the
per-entry checks over the configured limits, unlock, return the validity flag
together with the mutex count at return. -/
def EncoderJointModule.check_limits (m : EncoderJointModule) (door : ℕ) :
    Bool × ℕ :=
  let door1 := door + 1
  let valid := Measurements.kinds.all (fun k => m.check_limit_entry k)
  let door2 := door1 - 1
  (valid, door2)

/-- The registry state of the `Monopod` class that the verified operations
read: the initialization flag, the canonical readable and controllable index
orders, and (modelled from the spec, since the motor-module sources are not in
the repository snapshot) one torque command slot per joint. -/
structure Monopod where
  is_initialized : Bool
  read_joint_indexing : List ℤ
  write_joint_indexing : List ℤ
  torque_targets : ℤ → ℚ

/-- Model of the `Contains` template helper of the Monopod header:
`std::find(vec.begin(), vec.end(), element) != vec.end()`. -/
def Contains (vec : List ℤ) (element : ℤ) : Bool :=
  vec.contains element

/-- The effective index list of a batch operation, mirroring the local
`jointSerialization` of `getJointDataSerialized`: an empty argument selects
the canonical `read_joint_indexing` order. -/
def jointSerialization (monopod : Monopod) (joint_indexes : List ℤ) : List ℤ :=
  if joint_indexes.isEmpty then monopod.read_joint_indexing else joint_indexes

/-- The loop of `Monopod::getJointDataSerialized`: every iterated index must
pass `is_initialized && Contains(read_joint_indexing, joint_index)`, otherwise
the whole call returns `std::nullopt`. -/
def getJointDataSerializedLoop (monopod : Monopod) (getJointData : ℤ → D) :
    List ℤ → Option (List D)
  | [] => some []
  | joint_index :: rest =>
      if monopod.is_initialized && Contains monopod.read_joint_indexing joint_index then
        match getJointDataSerializedLoop monopod getJointData rest with
        | some data => some (getJointData joint_index :: data)
        | none => none
      else none

/-- Model of `Monopod::getJointDataSerialized`: run the validation loop over
the effective index list, collecting `getJointData` at each index. -/
def getJointDataSerialized (monopod : Monopod) (joint_indexes : List ℤ)
    (getJointData : ℤ → D) : Option (List D) :=
  getJointDataSerializedLoop monopod getJointData (jointSerialization monopod joint_indexes)

/-- Modelled from the spec: the body of `Monopod::is_joint_controllable` is
not under src/ (only its declaration); per the spec it is a membership test of
the joint index against the writable (controllable) set. -/
def Monopod.is_joint_controllable (monopod : Monopod) (joint_index : ℤ) : Bool :=
  Contains monopod.write_joint_indexing joint_index

/-- Modelled from the spec: the body of `Monopod::set_torque_target` is not
under src/ (only its declaration); per the spec it validates that the sdk is
initialized and the addressed index is controllable before writing the command
slot, and returns false leaving all state untouched otherwise. -/
def Monopod.set_torque_target (monopod : Monopod) (torque_target : ℚ)
    (joint_index : ℤ) : Bool × Monopod :=
  if monopod.is_initialized && monopod.is_joint_controllable joint_index then
    (true, { monopod with torque_targets :=
        fun k => if k = joint_index then torque_target else monopod.torque_targets k })
  else
    (false, monopod)

/-- Write a list of (index, torque) pairs into the command slots, leftmost
pair first. -/
def writeTorqueTargets (slots : ℤ → ℚ) : List (ℤ × ℚ) → ℤ → ℚ
  | [], k => slots k
  | (j, t) :: rest, k =>
      writeTorqueTargets (fun i => if i = j then t else slots i) rest k

/-- Modelled from the spec: the body of `Monopod::set_torque_targets` is not
under src/ (only its declaration); per the spec a batch call validates that
the sdk is initialized and that every addressed index is controllable before
mutating any command slot (an empty index argument selects the canonical
`write_joint_indexing` order), returning false with all state untouched if any
validation fails. -/
def Monopod.set_torque_targets (monopod : Monopod) (torque_targets : List ℚ)
    (joint_indexes : List ℤ) : Bool × Monopod :=
  if monopod.is_initialized &&
      (if joint_indexes.isEmpty then monopod.write_joint_indexing
       else joint_indexes).all (fun i => monopod.is_joint_controllable i) then
    (true, { monopod with torque_targets :=
        (writeTorqueTargets monopod.torque_targets
          ((if joint_indexes.isEmpty then monopod.write_joint_indexing
            else joint_indexes).zip torque_targets)) })
  else
    (false, monopod)

/-! Helper lemmas shared between the claim theorems. -/

theorem check_limits_fst (m : EncoderJointModule) (door : ℕ) :
    (m.check_limits door).1 = Measurements.kinds.all (fun k => m.check_limit_entry k) :=
  rfl

theorem in_range_eq_true_iff (d : D) (mn mx : ℚ) :
    in_range d mn mx = true ↔ ∃ v : ℚ, d = D.val v ∧ mn ≤ v ∧ v < mx := by
  cases d with
  | nan => simp [in_range]
  | val v =>
      simp only [in_range, Bool.and_eq_true, decide_eq_true_eq, D.val.injEq]
      constructor
      · rintro ⟨h1, h2⟩
        exact ⟨v, rfl, h1, h2⟩
      · rintro ⟨w, hw, h1, h2⟩
        cases hw
        exact ⟨h1, h2⟩

theorem check_limit_entry_eq_true_iff (m : EncoderJointModule) (id : Measurements) :
    m.check_limit_entry id = true ↔
      ∀ jl : JointLimit, m.limits id = some jl →
        ((id = Measurements.acceleration ∧ (m.limit_measurement id).isnan = true) ∨
         ∃ v : ℚ, m.limit_measurement id = D.val v ∧ jl.min ≤ v ∧ v < jl.max) := by
  cases hl : m.limits id with
  | none => simp [EncoderJointModule.check_limit_entry, hl]
  | some jl =>
      simp only [EncoderJointModule.check_limit_entry, hl]
      by_cases hc :
          ((m.limit_measurement id).isnan && decide (id = Measurements.acceleration)) = true
      · rw [if_pos hc]
        rw [Bool.and_eq_true, decide_eq_true_eq] at hc
        simp only [true_iff]
        intro jl' hjl'
        exact Or.inl ⟨hc.2, hc.1⟩
      · rw [if_neg hc]
        have hleft : ¬(id = Measurements.acceleration ∧ (m.limit_measurement id).isnan = true) := by
          rintro ⟨h1, h2⟩
          exact hc (by rw [Bool.and_eq_true, decide_eq_true_eq]; exact ⟨h2, h1⟩)
        constructor
        · intro h jl' hjl'
          injection hjl' with hjl'
          subst hjl'
          exact Or.inr ((in_range_eq_true_iff _ _ _).mp h)
        · intro h
          rcases h jl rfl with habs | hr
          · exact absurd ⟨habs.1, habs.2⟩ hleft
          · exact (in_range_eq_true_iff _ _ _).mpr hr

theorem check_limits_eq_true_iff (m : EncoderJointModule) (door : ℕ) :
    (m.check_limits door).1 = true ↔ ∀ id, m.check_limit_entry id = true := by
  rw [check_limits_fst, List.all_eq_true]
  constructor
  · intro h id
    exact h id (Measurements.mem_kinds id)
  · intro h id _
    exact h id

/-! Concrete module instances used by witnesses and counterexamples. -/

/-- A time-series channel with no samples. -/
def emptyChannel : TimeSeries :=
  { samples := [], newest_timeindex := 0 }

/-- An encoder all of whose channels are empty. -/
def encoderEmpty : Measurements → TimeSeries := fun _ => emptyChannel

/-- A freshly constructed joint module with unit calibration and no samples. -/
def mFresh : EncoderJointModule :=
  EncoderJointModule.construct 0 encoderEmpty 1 0 false

/-- An encoder whose every channel holds one sample 2 at time index 7. -/
def encoderFull : Measurements → TimeSeries :=
  fun _ => { samples := [2], newest_timeindex := 7 }

/-- A joint module over `encoderFull` with unit calibration. -/
def mFull : EncoderJointModule :=
  EncoderJointModule.construct 1 encoderFull 1 0 false

/-- C10: a joint module whose limit table is empty (no limit has ever been set
for any kind) passes check_limits() vacuously, regardless of the measurement
histories and calibration values. -/
theorem c10_empty_limit_table_passes (m : EncoderJointModule) (door : ℕ)
    (h : ∀ k, m.limits k = none) : (m.check_limits door).1 = true := by
  rw [check_limits_eq_true_iff]
  intro id
  simp [EncoderJointModule.check_limit_entry, h id]

/-- Witness for C10 at the freshly constructed module. -/
theorem c10_witness : (mFresh.check_limits 0).1 = true :=
  c10_empty_limit_table_passes mFresh 0 (fun _ => rfl)

/-- C5: on a channel with empty history the calibrated getters return NaN and
get_joint_measurement_index returns -1; on a non-empty channel
get_joint_measurement_index returns the newest logical time index. -/
theorem c5_empty_history_signals (m : EncoderJointModule) :
    ((m.encoder Measurements.position).length = 0 → m.get_measured_angle = D.nan) ∧
    ((m.encoder Measurements.velocity).length = 0 → m.get_measured_velocity = D.nan) ∧
    ((m.encoder Measurements.acceleration).length = 0 →
      m.get_measured_acceleration = D.nan) ∧
    ((m.encoder Measurements.encoder_index).length = 0 →
      m.get_measured_index_angle = D.nan) ∧
    (∀ k, (m.encoder k).length = 0 → m.get_joint_measurement_index k = -1) ∧
    (∀ k, (m.encoder k).length ≠ 0 →
      m.get_joint_measurement_index k = (m.encoder k).newest_timeindex) := by
  refine ⟨?_, ?_, ?_, ?_, ?_, ?_⟩
  · intro h
    simp [EncoderJointModule.get_measured_angle, EncoderJointModule.get_joint_measurement,
          h, D.divQ, D.subQ]
  · intro h
    simp [EncoderJointModule.get_measured_velocity, EncoderJointModule.get_joint_measurement,
          h, D.divQ]
  · intro h
    simp [EncoderJointModule.get_measured_acceleration,
          EncoderJointModule.get_joint_measurement, h, D.divQ]
  · intro h
    simp [EncoderJointModule.get_measured_index_angle,
          EncoderJointModule.get_joint_measurement, h, D.divQ]
  · intro k h
    simp [EncoderJointModule.get_joint_measurement_index, h]
  · intro k h
    simp [EncoderJointModule.get_joint_measurement_index, h]

/-- Witness for C5: the fresh module (all channels empty) signals NaN and -1;
the full module reports the newest time index 7. -/
theorem c5_witness :
    mFresh.get_measured_angle = D.nan ∧
    mFresh.get_joint_measurement_index Measurements.position = -1 ∧
    mFull.get_joint_measurement_index Measurements.position = 7 :=
  ⟨(c5_empty_history_signals mFresh).1 rfl,
   (c5_empty_history_signals mFresh).2.2.2.2.1 Measurements.position rfl,
   ((c5_empty_history_signals mFull).2.2.2.2.2 Measurements.position (by decide)).trans rfl⟩

/-- C2: with a non-empty history on a channel, the calibrated getter of that
channel returns polarity times the newest raw element divided by gear_ratio,
and the angle getter additionally subtracts zero_angle. -/
theorem c2_calibrated_getters (m : EncoderJointModule) (hg : m.gear_ratio ≠ 0) :
    (∀ (r : ℚ) (rest : List ℚ), (m.encoder Measurements.position).samples = r :: rest →
        m.get_measured_angle = D.val (m.polarity * r / m.gear_ratio - m.zero_angle)) ∧
    (∀ (r : ℚ) (rest : List ℚ), (m.encoder Measurements.velocity).samples = r :: rest →
        m.get_measured_velocity = D.val (m.polarity * r / m.gear_ratio)) ∧
    (∀ (r : ℚ) (rest : List ℚ),
        (m.encoder Measurements.acceleration).samples = r :: rest →
        m.get_measured_acceleration = D.val (m.polarity * r / m.gear_ratio)) ∧
    (∀ (r : ℚ) (rest : List ℚ),
        (m.encoder Measurements.encoder_index).samples = r :: rest →
        m.get_measured_index_angle = D.val (m.polarity * r / m.gear_ratio)) := by
  refine ⟨?_, ?_, ?_, ?_⟩ <;> intro r rest h <;>
    simp [EncoderJointModule.get_measured_angle, EncoderJointModule.get_measured_velocity,
          EncoderJointModule.get_measured_acceleration,
          EncoderJointModule.get_measured_index_angle,
          EncoderJointModule.get_joint_measurement, TimeSeries.length,
          TimeSeries.newest_element, h, D.divQ, D.subQ, hg]

/-- An encoder with one raw position sample 3 and no other samples. -/
def encoderC2 : Measurements → TimeSeries
  | Measurements.position => { samples := [3], newest_timeindex := 0 }
  | _ => emptyChannel

/-- A joint module with gear ratio 2, zero angle one half and reversed
polarity over `encoderC2`. -/
def mC2 : EncoderJointModule :=
  EncoderJointModule.construct 0 encoderC2 2 (1 / 2) true

/-- Witness for C2: reversed polarity, gear ratio 2, zero angle one half and
raw sample 3 give measured angle -1 * 3 / 2 - 1/2 = -2. -/
theorem c2_witness : mC2.get_measured_angle = D.val (-2) := by
  have h := (c2_calibrated_getters mC2 (by show (2 : ℚ) ≠ 0; norm_num)).1 3 [] rfl
  rw [h]
  show D.val ((-1 : ℚ) * 3 / 2 - 1 / 2) = D.val (-2)
  norm_num

/-- C1: for a joint module whose limit table only has entries among position,
velocity and acceleration (no encoder_index entry), check_limits() returns
true iff every configured limit, except an acceleration limit whose measured
value is NaN, satisfies min <= calibrated value < max (min inclusive, max
exclusive); in particular a configured limit with max = min equal to the
measured value forces check_limits() to return false, and by the iff a NaN
acceleration measurement alone never makes the check fail. -/
theorem c1_check_limits_characterization (m : EncoderJointModule) (door : ℕ)
    (henc : m.limits Measurements.encoder_index = none) :
    ((m.check_limits door).1 = true ↔
      ∀ (id : Measurements) (jl : JointLimit), m.limits id = some jl →
        ((id = Measurements.acceleration ∧ (m.limit_measurement id).isnan = true) ∨
         ∃ v : ℚ, m.limit_measurement id = D.val v ∧ jl.min ≤ v ∧ v < jl.max)) ∧
    (∀ (id : Measurements) (jl : JointLimit), m.limits id = some jl →
      jl.max = jl.min → m.limit_measurement id = D.val jl.min →
      (m.check_limits door).1 = false) := by
  have hiff : (m.check_limits door).1 = true ↔
      ∀ (id : Measurements) (jl : JointLimit), m.limits id = some jl →
        ((id = Measurements.acceleration ∧ (m.limit_measurement id).isnan = true) ∨
         ∃ v : ℚ, m.limit_measurement id = D.val v ∧ jl.min ≤ v ∧ v < jl.max) := by
    rw [check_limits_eq_true_iff]
    constructor
    · intro h id jl hjl
      exact (check_limit_entry_eq_true_iff m id).mp (h id) jl hjl
    · intro h id
      exact (check_limit_entry_eq_true_iff m id).mpr (fun jl hjl => h id jl hjl)
  refine ⟨hiff, ?_⟩
  intro id jl hjl hmaxmin hmeas
  cases hb : (m.check_limits door).1 with
  | false => rfl
  | true =>
      rcases hiff.mp hb id jl hjl with ⟨hacc, hnan⟩ | ⟨v, hv, h1, h2⟩
      · rw [hmeas] at hnan
        exact absurd hnan (by simp [D.isnan])
      · rw [hmeas] at hv
        injection hv with hv
        rw [← hv, hmaxmin] at h2
        exact absurd h2 (lt_irrefl _)

/-- An encoder with one raw position sample one half and no other samples. -/
def encoderW : Measurements → TimeSeries
  | Measurements.position => { samples := [1 / 2], newest_timeindex := 0 }
  | _ => emptyChannel

/-- A joint module with unit calibration, a position limit [0, 1) and an
acceleration limit [0, 1), whose acceleration channel is empty (NaN). -/
def mW : EncoderJointModule :=
  { joint_id := 0
    gear_ratio := 1
    zero_angle := 0
    polarity := 1
    encoder := encoderW
    limits := fun k =>
      match k with
      | Measurements.position => some { min := 0, max := 1 }
      | Measurements.acceleration => some { min := 0, max := 1 }
      | _ => none }

/-- Witness for C1: on `mW` the configured position limit holds for the
calibrated angle one half and the NaN acceleration is exempt, so the check
passes. -/
theorem c1_witness : (mW.check_limits 0).1 = true := by
  refine (c1_check_limits_characterization mW 0 rfl).1.mpr ?_
  intro id jl hjl
  cases id with
  | position =>
      injection hjl with hjl
      subst hjl
      refine Or.inr ⟨1 / 2, ?_, by norm_num, by norm_num⟩
      show mW.get_measured_angle = D.val (1 / 2)
      show ((mW.get_joint_measurement Measurements.position).divQ 1).subQ 0 = D.val (1 / 2)
      show ((D.val ((1 : ℚ) * (1 / 2))).divQ 1).subQ 0 = D.val (1 / 2)
      simp [D.divQ, D.subQ]
  | velocity => exact Option.noConfusion hjl
  | acceleration =>
      injection hjl with hjl
      subst hjl
      exact Or.inl ⟨rfl, rfl⟩
  | encoder_index => exact Option.noConfusion hjl

/-- An encoder with one raw encoder_index sample 5 and no other samples. -/
def encoderC6 : Measurements → TimeSeries
  | Measurements.encoder_index => { samples := [5], newest_timeindex := 0 }
  | _ => emptyChannel

/-- A joint module with unit calibration whose only configured limit is
[4, 6) on the encoder_index kind, with calibrated index angle 5. -/
def mC6 : EncoderJointModule :=
  { joint_id := 0
    gear_ratio := 1
    zero_angle := 0
    polarity := 1
    encoder := encoderC6
    limits := fun k =>
      match k with
      | Measurements.encoder_index => some { min := 4, max := 6 }
      | _ => none }

/-- C6 counterexample: on `mC6` the calibrated index-angle measurement is 5,
inside the configured limit [4, 6), so under the claim check_limits() would
return true; the code instead checks the constant 0 of the default switch
branch against [4, 6) and returns false. -/
theorem c6_counterexample :
    in_range mC6.get_measured_index_angle 4 6 = true ∧
    (mC6.check_limits 0).1 = false := by
  constructor
  · show in_range ((mC6.get_joint_measurement Measurements.encoder_index).divQ 1) 4 6 = true
    show in_range ((D.val ((1 : ℚ) * 5)).divQ 1) 4 6 = true
    norm_num [D.divQ, in_range]
  · rw [check_limits_fst]
    show (mC6.check_limit_entry Measurements.position &&
      (mC6.check_limit_entry Measurements.velocity &&
        (mC6.check_limit_entry Measurements.acceleration &&
          (mC6.check_limit_entry Measurements.encoder_index && true)))) = false
    have h : mC6.check_limit_entry Measurements.encoder_index = false := by
      show (if (D.val 0).isnan && decide (Measurements.encoder_index = Measurements.acceleration)
        then true else in_range (D.val 0) 4 6) = false
      norm_num [D.isnan, in_range]
    rw [h]
    simp

/-- C6 amended: when a limit is configured for the encoder_index kind (and no
other kind is configured), check_limits() checks the constant 0 produced by
the default branch of its switch statement against {min, max}; the calibrated
index-angle measurement is not consulted. -/
theorem c6_amended_default_branch (m : EncoderJointModule) (door : ℕ) (jl : JointLimit)
    (h : m.limits Measurements.encoder_index = some jl)
    (hp : m.limits Measurements.position = none)
    (hv : m.limits Measurements.velocity = none)
    (ha : m.limits Measurements.acceleration = none) :
    (m.check_limits door).1 = in_range (D.val 0) jl.min jl.max := by
  rw [check_limits_fst]
  show (m.check_limit_entry Measurements.position &&
    (m.check_limit_entry Measurements.velocity &&
      (m.check_limit_entry Measurements.acceleration &&
        (m.check_limit_entry Measurements.encoder_index && true)))) = _
  simp only [EncoderJointModule.check_limit_entry, h, hp, hv, ha,
    EncoderJointModule.limit_measurement, D.isnan, Bool.false_and, Bool.if_false_left,
    Bool.true_and, Bool.and_true, Bool.not_false]
  exact if_neg (by simp)

/-- Witness for the amended C6 on the concrete module `mC6`. -/
theorem c6_witness : (mC6.check_limits 0).1 = in_range (D.val 0) 4 6 :=
  c6_amended_default_branch mC6 0 { min := 4, max := 6 } rfl rfl rfl rfl

/-- An encoder with one raw position sample 1 and no other samples. -/
def encoderC9 : Measurements → TimeSeries
  | Measurements.position => { samples := [1], newest_timeindex := 0 }
  | _ => emptyChannel

/-- C9 counterexample: constructing a joint module with gear_ratio = 0 is
silently accepted (the constructor performs no validation), and the calibrated
angle getter then divides by zero and yields a non-finite value. -/
theorem c9_counterexample :
    (EncoderJointModule.construct 0 encoderC9 0 0 false).gear_ratio = 0 ∧
    (EncoderJointModule.construct 0 encoderC9 0 0 false).get_measured_angle = D.nan := by
  refine ⟨rfl, ?_⟩
  show ((D.val ((1 : ℚ) * 1)).divQ 0).subQ 0 = D.nan
  simp [D.divQ, D.subQ]

/-- C9 amended: gear_ratio = 0 is not rejected at construction; the
constructor stores it unchecked, and on any non-empty position history the
calibrated angle getter divides by zero, producing a non-finite value
(modelled as NaN) instead of a real measurement. -/
theorem c9_amended_no_rejection (joint_id : ℕ) (encoder : Measurements → TimeSeries)
    (zero_angle : ℚ) (reverse_polarity : Bool) :
    (EncoderJointModule.construct joint_id encoder 0 zero_angle
      reverse_polarity).gear_ratio = 0 ∧
    ((encoder Measurements.position).length ≠ 0 →
      (EncoderJointModule.construct joint_id encoder 0 zero_angle
        reverse_polarity).get_measured_angle = D.nan) := by
  refine ⟨rfl, ?_⟩
  intro h
  simp [EncoderJointModule.get_measured_angle, EncoderJointModule.get_joint_measurement,
        EncoderJointModule.construct, h, D.divQ, D.subQ]

/-- Witness for the amended C9 at a concrete constructed module. -/
theorem c9_witness :
    (EncoderJointModule.construct 1 encoderC9 0 5 true).get_measured_angle = D.nan :=
  (c9_amended_no_rejection 1 encoderC9 5 true).2 (by decide)

/-- C4 code bug, evaluated: on a module whose limit table has no entry for the
position kind, get_limit does not return the unconstrained default
JointLimit; it throws std::out_of_range (modelled Except.error) and moreover
returns with the limit mutex still held. -/
theorem c4_get_limit_throws_on_unset :
    (mFresh.get_limit 0 Measurements.position).1 = Except.error () ∧
    (mFresh.get_limit 0 Measurements.position).1 ≠ Except.ok JointLimit.unconstrained ∧
    (mFresh.get_limit 0 Measurements.position).2 = 1 := by
  refine ⟨rfl, ?_, rfl⟩
  intro h
  exact Except.noConfusion ((rfl : (mFresh.get_limit 0 Measurements.position).1
    = Except.error ()).symm.trans h)

/-- A module obtained from `mFresh` by setting a position limit [0, 1). -/
def mC7 : EncoderJointModule :=
  (mFresh.set_limit 0 Measurements.position { min := 0, max := 1 }).1

/-- C7 code bug, evaluated: starting from a free mutex, set_limit and
check_limits return with the mutex free again, but get_limit returns its value
while still holding the mutex once (the unlock after its return statement is
unreachable). -/
theorem c7_get_limit_keeps_lock :
    (mC7.set_limit 0 Measurements.velocity { min := 0, max := 1 }).2 = 0 ∧
    (mC7.check_limits 0).2 = 0 ∧
    (mC7.get_limit 0 Measurements.position).1 = Except.ok { min := 0, max := 1 } ∧
    (mC7.get_limit 0 Measurements.position).2 = 1 :=
  ⟨rfl, rfl, rfl, rfl⟩

/-- The validation loop succeeds and maps the getter over the whole list when
the sdk is initialized and every iterated index is readable. -/
theorem getJointDataSerializedLoop_ok (mp : Monopod) (f : ℤ → D)
    (hinit : mp.is_initialized = true) :
    ∀ l : List ℤ, (∀ i ∈ l, Contains mp.read_joint_indexing i = true) →
      getJointDataSerializedLoop mp f l = some (l.map f) := by
  intro l
  induction l with
  | nil => intro _; rfl
  | cons i rest ih =>
      intro h
      have hi := h i (List.mem_cons_self i rest)
      have hrest := ih (fun j hj => h j (List.mem_cons_of_mem i hj))
      simp [getJointDataSerializedLoop, hinit, hi, hrest]

/-- The validation loop fails on any non-empty list as soon as the sdk is
uninitialized or some iterated index is not readable. -/
theorem getJointDataSerializedLoop_none (mp : Monopod) (f : ℤ → D) :
    ∀ l : List ℤ, l ≠ [] →
      (mp.is_initialized = false ∨
        ∃ i ∈ l, Contains mp.read_joint_indexing i = false) →
      getJointDataSerializedLoop mp f l = none := by
  intro l
  induction l with
  | nil => intro h _; exact absurd rfl h
  | cons i rest ih =>
      intro _ h
      by_cases hc : (mp.is_initialized && Contains mp.read_joint_indexing i) = true
      · rw [Bool.and_eq_true] at hc
        have hbad : ∃ j ∈ rest, Contains mp.read_joint_indexing j = false := by
          rcases h with hf | ⟨j, hj, hcont⟩
          · rw [hc.1] at hf; exact absurd hf (by simp)
          · rcases List.mem_cons.mp hj with hji | hjr
            · rw [hji, hc.2] at hcont; exact absurd hcont (by simp)
            · exact ⟨j, hjr, hcont⟩
          
        obtain ⟨j, hjr, hjc⟩ := hbad
        have hrest := ih (List.ne_nil_of_mem hjr) (Or.inr ⟨j, hjr, hjc⟩)
        simp [getJointDataSerializedLoop, hc.1, hc.2, hrest]
      · rw [Bool.not_eq_true] at hc
        simp [getJointDataSerializedLoop, hc]

/-- C3 amended: a batch get fails as a whole (returns nullopt, never a partial
sequence) whenever the effective index list is non-empty and the sdk is
uninitialized or some requested index is not readable; a valid request returns
the sequence aligned with the requested order; an explicitly empty index list
behaves identically to iterating the canonical read_joint_indexing order.
When the effective index list is empty (empty request on an empty registry
order), the loop body never runs and the call returns a present empty
sequence even if the sdk is uninitialized. -/
theorem c3_amended_batch_getters :
    (∀ (mp : Monopod) (joint_indexes : List ℤ) (f : ℤ → D),
        jointSerialization mp joint_indexes ≠ [] →
        (mp.is_initialized = false ∨
          ∃ i ∈ jointSerialization mp joint_indexes,
            Contains mp.read_joint_indexing i = false) →
        getJointDataSerialized mp joint_indexes f = none) ∧
    (∀ (mp : Monopod) (joint_indexes : List ℤ) (f : ℤ → D),
        mp.is_initialized = true →
        (∀ i ∈ jointSerialization mp joint_indexes,
            Contains mp.read_joint_indexing i = true) →
        getJointDataSerialized mp joint_indexes f =
          some ((jointSerialization mp joint_indexes).map f)) ∧
    (∀ (mp : Monopod) (f : ℤ → D),
        getJointDataSerialized mp [] f =
          getJointDataSerialized mp mp.read_joint_indexing f) := by
  refine ⟨?_, ?_, ?_⟩
  · intro mp joint_indexes f hne h
    exact getJointDataSerializedLoop_none mp f _ hne h
  · intro mp joint_indexes f hinit h
    exact getJointDataSerializedLoop_ok mp f hinit _ h
  · intro mp f
    unfold getJointDataSerialized jointSerialization
    simp

/-- The registry state before initialize(): uninitialized, with both canonical
index orders still empty. -/
def monopodUninit : Monopod :=
  { is_initialized := false
    read_joint_indexing := []
    write_joint_indexing := []
    torque_targets := fun _ => 0 }

/-- C3 counterexample: on the uninitialized registry whose canonical read
order is still empty, a batch get with the default empty index list returns a
present empty sequence (some []), not the absent result the claim requires for
an uninitialized system. -/
theorem c3_counterexample :
    monopodUninit.is_initialized = false ∧
    getJointDataSerialized monopodUninit [] (fun _ => D.val 0) = some [] :=
  ⟨rfl, rfl⟩

/-- A registry with joints 0 and 1 readable and only joint 0 controllable. -/
def monopodRW : Monopod :=
  { is_initialized := true
    read_joint_indexing := [0, 1]
    write_joint_indexing := [0]
    torque_targets := fun _ => 0 }

/-- Witness for the amended C3: one invalid index among valid ones fails the
whole batch, and a fully valid explicit request returns the aligned
sequence. -/
theorem c3_witness :
    getJointDataSerialized monopodRW [1, 0, 5] (fun i => D.val i) = none ∧
    getJointDataSerialized monopodRW [1, 0] (fun i => D.val i) =
      some [D.val 1, D.val 0] := by
  constructor
  · exact c3_amended_batch_getters.1 monopodRW [1, 0, 5] _ (by decide)
      (Or.inr ⟨5, by decide, by decide⟩)
  · have h := c3_amended_batch_getters.2.1 monopodRW [1, 0] (fun i => D.val i) rfl
      (by decide)
    exact h.trans rfl

/-- C8: a torque command call on an uninitialized sdk, or addressing any index
outside the controllable set, returns false and leaves every command slot
untouched (all-or-nothing: the returned state is the unmodified input state),
both for the batch call and for the single-joint call. -/
theorem c8_torque_targets_all_or_nothing :
    (∀ (mp : Monopod) (torques : List ℚ) (joint_indexes : List ℤ),
        (mp.is_initialized = false ∨
          ∃ i ∈ (if joint_indexes.isEmpty then mp.write_joint_indexing
                 else joint_indexes),
            mp.is_joint_controllable i = false) →
        mp.set_torque_targets torques joint_indexes = (false, mp)) ∧
    (∀ (mp : Monopod) (torque : ℚ) (joint_index : ℤ),
        (mp.is_initialized = false ∨
          mp.is_joint_controllable joint_index = false) →
        mp.set_torque_target torque joint_index = (false, mp)) := by
  constructor
  · intro mp torques joint_indexes h
    unfold Monopod.set_torque_targets
    rw [if_neg]
    intro hc
    rw [Bool.and_eq_true, List.all_eq_true] at hc
    rcases h with h1 | ⟨i, hi, hic⟩
    · rw [h1] at hc
      exact Bool.false_ne_true hc.1
    · have := hc.2 i hi
      rw [hic] at this
      exact Bool.false_ne_true this
  · intro mp torque joint_index h
    unfold Monopod.set_torque_target
    rw [if_neg]
    intro hc
    rw [Bool.and_eq_true] at hc
    rcases h with h1 | h2
    · rw [h1] at hc
      exact Bool.false_ne_true hc.1
    · rw [h2] at hc
      exact Bool.false_ne_true hc.2

/-- Witness for C8, the scenario of the spec: on the registry with joint 0
controllable and joint 1 readable only, joint 1 is not controllable and a
torque command addressed to it fails leaving the state unchanged, both as a
single call and as a batch; a batch over the uninitialized registry state with
a non-empty index list fails too. -/
theorem c8_witness :
    monopodRW.is_joint_controllable 1 = false ∧
    monopodRW.set_torque_target 1 1 = (false, monopodRW) ∧
    monopodRW.set_torque_targets [2, 1] [0, 1] = (false, monopodRW) ∧
    monopodUninit.set_torque_targets [1] [0] = (false, monopodUninit) :=
  ⟨by decide,
   c8_torque_targets_all_or_nothing.2 monopodRW 1 1 (Or.inr (by decide)),
   c8_torque_targets_all_or_nothing.1 monopodRW [2, 1] [0, 1]
     (Or.inr ⟨1, by decide, by decide⟩),
   c8_torque_targets_all_or_nothing.1 monopodUninit [1] [0] (Or.inl rfl)⟩
